import Mathlib

/-!
Verification of the healthcare ETL pipeline (`etl_app/etl_script.py`).

The pipeline reads two CSV tables (readmissions = source A, hospital
info = source B), normalizes headers, coerces two numeric columns on A,
drops incomplete A rows, filters A to one measure, projects B to six
columns, drops A's duplicated `state`/`facility_name` columns, inner-joins
on `facility_id`, and replaces one table in a SQL store, with a bounded
connection-retry loop.

Dataframes are embedded as lists of association-list rows together with a
header list; pandas operations that raise `KeyError` on absent columns are
embedded in the `Except` monad.
-/

namespace HealthcareETL

/-- A cell value: a raw string, a parsed number, or the missing marker
(pandas `NaN`).  Numbers are modelled as rationals. -/
inductive Value where
  | str (s : String)
  | num (q : Rat)
  | nan
deriving DecidableEq, Repr

/-- A dataframe row: an association list from column name to value. -/
abbrev Row := List (String × Value)

/-- The value of column `c` in row `r`; an absent column reads as the
missing marker, mirroring a pandas cell that holds no data. -/
def cell (r : Row) (c : String) : Value :=
  match r.find? (fun p => decide (p.1 = c)) with
  | some p => p.2
  | none => Value.nan

/-- A dataframe: a header list and a list of rows. -/
structure DataFrame where
  cols : List String
  rows : List Row
deriving DecidableEq, Repr

/-- Errors raised by the transform stage.  Every absent-column access in
the script surfaces as an uncaught Python `KeyError`. -/
inductive ETLError where
  | keyError (c : String)
deriving DecidableEq, Repr

/-- Whitespace test used by header stripping. -/
def isSpace (c : Char) : Bool := c.isWhitespace

/-- Strip leading and trailing whitespace from a character list. -/
def trimChars (l : List Char) : List Char :=
  ((l.dropWhile isSpace).reverse.dropWhile isSpace).reverse

/-- One column name through the script's cleaning chain
`.str.strip().str.lower().str.replace(' ', '_').str.replace('/', '_')`. -/
def normalizeHeader (s : String) : String :=
  String.mk (((trimChars s.data).map Char.toLower).map
    (fun c => if c = ' ' then '_' else if c = '/' then '_' else c))

/-- Rename every column label of one row. -/
def normalizeRow (r : Row) : Row :=
  r.map (fun p => (normalizeHeader p.1, p.2))

/-- `df.columns = df.columns.str.strip()...` applied to a dataframe. -/
def normalizeHeaders (df : DataFrame) : DataFrame :=
  ⟨df.cols.map normalizeHeader, df.rows.map normalizeRow⟩

/-- `pd.to_numeric(v, errors='coerce')` on one cell, parameterized by the
numeric grammar `parse`: a string that fails to parse becomes the missing
marker instead of raising; numbers and missing cells pass through. -/
def coerceValue (parse : String → Option Rat) : Value → Value
  | Value.str s =>
    match parse s with
    | some q => Value.num q
    | none => Value.nan
  | Value.num q => Value.num q
  | Value.nan => Value.nan

/-- Coerce column `c` of one row; labels are untouched. -/
def coerceRow (parse : String → Option Rat) (c : String) (r : Row) : Row :=
  r.map (fun p => if p.1 = c then (p.1, coerceValue parse p.2) else p)

/-- `df[col] = pd.to_numeric(df[col], errors='coerce')` guarded by the
script's `if col in df.columns`. -/
def coerceCol (parse : String → Option Rat) (df : DataFrame) (c : String) :
    DataFrame :=
  if c ∈ df.cols then ⟨df.cols, df.rows.map (coerceRow parse c)⟩ else df

/-- `df.dropna(subset=...)`: raises `KeyError` when a subset column is
absent, otherwise keeps exactly the rows whose subset cells are all
non-missing. -/
def dropna (df : DataFrame) (subset : List String) : Except ETLError DataFrame :=
  match subset.find? (fun c => decide (c ∉ df.cols)) with
  | some c => Except.error (ETLError.keyError c)
  | none => Except.ok ⟨df.cols,
      df.rows.filter (fun r => subset.all (fun c => decide (cell r c ≠ Value.nan)))⟩

/-- `df[df[c] == v]`: raises `KeyError` when `c` is absent, otherwise
keeps exactly the rows whose `c` cell equals `v` (a missing or numeric
cell never equals a string literal). -/
def filterEq (df : DataFrame) (c : String) (v : Value) :
    Except ETLError DataFrame :=
  if c ∈ df.cols then
    Except.ok ⟨df.cols, df.rows.filter (fun r => decide (cell r c = v))⟩
  else Except.error (ETLError.keyError c)

/-- `df[[c1, ..., cn]]`: column projection; raises `KeyError` when a
requested column is absent. -/
def selectCols (df : DataFrame) (cs : List String) :
    Except ETLError DataFrame :=
  match cs.find? (fun c => decide (c ∉ df.cols)) with
  | some c => Except.error (ETLError.keyError c)
  | none => Except.ok ⟨cs, df.rows.map (fun r => cs.map (fun c => (c, cell r c)))⟩

/-- `df.drop(columns=cs)`: raises `KeyError` when a listed column is
absent, otherwise removes the columns from the header and from every
row. -/
def dropCols (df : DataFrame) (cs : List String) :
    Except ETLError DataFrame :=
  match cs.find? (fun c => decide (c ∉ df.cols)) with
  | some c => Except.error (ETLError.keyError c)
  | none => Except.ok ⟨df.cols.filter (fun c => decide (c ∉ cs)),
      df.rows.map (fun r => r.filter (fun p => decide (p.1 ∉ cs)))⟩

/-- Suffix the label of a pair when it belongs to the overlap set, as
`pd.merge` does with its default suffixes. -/
def renameIf (overlap : List String) (sfx : String) (p : String × Value) :
    String × Value :=
  if p.1 ∈ overlap then (p.1 ++ sfx, p.2) else p

/-- One merged row: the left row (overlap labels suffixed `_x`) followed
by the right row without its key column (overlap labels suffixed `_y`). -/
def combineRow (overlap : List String) (key : String) (a b : Row) : Row :=
  a.map (renameIf overlap "_x") ++
    (b.filter (fun p => decide (p.1 ≠ key))).map (renameIf overlap "_y")

/-- `pd.merge(l, r, on=key, how='inner')`: raises `KeyError` when the key
is absent from either side; otherwise pairs every left row with every
right row that carries the same key value, suffixing the non-key columns
the two sides share. -/
def merge (l r : DataFrame) (key : String) : Except ETLError DataFrame :=
  if key ∈ l.cols then
    if key ∈ r.cols then
      let overlap := l.cols.filter (fun c => decide (c ≠ key ∧ c ∈ r.cols))
      Except.ok ⟨l.cols.map (fun c => if c ∈ overlap then c ++ "_x" else c) ++
          (r.cols.filter (fun c => decide (c ≠ key))).map
            (fun c => if c ∈ overlap then c ++ "_y" else c),
        (l.rows.map (fun a =>
          (r.rows.filter (fun b => decide (cell b key = cell a key))).map
            (combineRow overlap key a))).flatten⟩
    else Except.error (ETLError.keyError key)
  else Except.error (ETLError.keyError key)

/-- The fixed measure code the script filters on. -/
def TARGET_MEASURE : String := "READM-30-HF-HRRP"

/-- `cols_to_numeric` from the script. -/
def COLS_TO_NUMERIC : List String :=
  ["excess_readmission_ratio", "number_of_discharges"]

/-- The projection list for `hospital_info_subset`. -/
def HOSPITAL_INFO_COLS : List String :=
  ["facility_id", "facility_name", "city_town", "state",
   "hospital_type", "hospital_ownership"]

/-- The columns dropped from the readmissions side before the merge. -/
def DROP_COLS : List String := ["state", "facility_name"]

/-- The destination table name. -/
def TABLE_NAME : String := "heart_failure_readmissions"

/-- The `for col in cols_to_numeric` loop. -/
def coerceNumerics (parse : String → Option Rat) (df : DataFrame) : DataFrame :=
  COLS_TO_NUMERIC.foldl (coerceCol parse) df

/-- Source-A preparation: header cleaning, numeric coercion, incomplete-row
dropping, and the measure filter — the script's `readmissions_filtered`.
An error at any step propagates, as an uncaught Python exception does. -/
def prepA (parse : String → Option Rat) (A : DataFrame) :
    Except ETLError DataFrame :=
  match dropna (coerceNumerics parse (normalizeHeaders A)) COLS_TO_NUMERIC with
  | Except.error e => Except.error e
  | Except.ok a1 => filterEq a1 "measure_name" (Value.str TARGET_MEASURE)

/-- Source-B preparation: header cleaning and column projection — the
script's `hospital_info_subset`. -/
def prepB (B : DataFrame) : Except ETLError DataFrame :=
  selectCols (normalizeHeaders B) HOSPITAL_INFO_COLS

/-- The whole transform phase: `final_df`. -/
def transform (parse : String → Option Rat) (A B : DataFrame) :
    Except ETLError DataFrame :=
  match prepA parse A with
  | Except.error e => Except.error e
  | Except.ok af =>
    match prepB B with
    | Except.error e => Except.error e
    | Except.ok bs =>
      match dropCols af DROP_COLS with
      | Except.error e => Except.error e
      | Except.ok af2 => merge af2 bs "facility_id"

/-- The SQL store, abstracted to a table-name-indexed collection of
dataframes. -/
abbrev Store := List (String × DataFrame)

/-- Read one table of the store. -/
def lookupTable (s : Store) (n : String) : Option DataFrame :=
  (s.find? (fun p => decide (p.1 = n))).map (fun p => p.2)

/-- `to_sql(..., if_exists='replace', index=False)`: the table is dropped
and recreated, so the write fully replaces any prior contents. -/
def writeTable (s : Store) (n : String) (df : DataFrame) : Store :=
  (n, df) :: s.filter (fun p => decide (p.1 ≠ n))

/-- Result of the connection-retry loop: whether the loop connected, how
many attempts were made, and the sleeps (in seconds) performed. -/
structure RetryResult where
  connected : Bool
  attempts : Nat
  sleeps : List Nat
deriving DecidableEq, Repr

/-- The `while not connected and retries > 0` loop: `made` attempts have
already happened, `r` retries remain; `avail n` tells whether attempt `n`
reaches the store.  Every failed attempt sleeps 10 seconds. -/
def retryLoopAux (avail : Nat → Bool) : Nat → Nat → RetryResult
  | made, 0 => ⟨false, made, []⟩
  | made, r + 1 =>
    if avail made then ⟨true, made + 1, []⟩
    else
      ⟨(retryLoopAux avail (made + 1) r).connected,
       (retryLoopAux avail (made + 1) r).attempts,
       10 :: (retryLoopAux avail (made + 1) r).sleeps⟩

/-- The script's retry loop: `retries = 5`, starting with no attempt
made. -/
def retryConnect (avail : Nat → Bool) : RetryResult :=
  retryLoopAux avail 0 5

/-- How one whole run ends. -/
inductive Outcome where
  | missingInput
  | transformError (e : ETLError)
  | connectFailed
  | writeFailed
  | success
deriving DecidableEq, Repr

/-- One whole run of the script.  `inA`/`inB` are `none` when the input
file is missing (`FileNotFoundError` → `exit()`); `avail` drives the
connection-retry loop; `writeOk` is whether `to_sql` succeeds.  Modelled
from the spec: the store write is all-or-nothing at the table level
(external-collaborator contract, spec §4.2/§7), so a failed write leaves
the store exactly as it was; the script catches the write exception,
performs no further store operation, and ends. -/
def runPipeline (parse : String → Option Rat) (inA inB : Option DataFrame)
    (avail : Nat → Bool) (writeOk : Bool) (store : Store) : Store × Outcome :=
  match inA, inB with
  | none, _ => (store, Outcome.missingInput)
  | some _, none => (store, Outcome.missingInput)
  | some A, some B =>
    match transform parse A B with
    | Except.error e => (store, Outcome.transformError e)
    | Except.ok df =>
      if (retryConnect avail).connected then
        if writeOk then (writeTable store TABLE_NAME df, Outcome.success)
        else (store, Outcome.writeFailed)
      else (store, Outcome.connectFailed)

/-- The join-key value of a row. -/
def rowKey (r : Row) : Value := cell r "facility_id"


/-- The overlap set computed by the single `merge` call of the script. -/
def overlapOf (lcols : List String) (key : String) (rcols : List String) :
    List String :=
  lcols.filter (fun c => decide (c ≠ key ∧ c ∈ rcols))

/-- All column names the final pipeline reasons about. -/
def ALL_TARGETS : List String :=
  ["facility_id", "measure_name", "excess_readmission_ratio",
   "number_of_discharges", "facility_name", "city_town", "state",
   "hospital_type", "hospital_ownership"]

/-- The columns of source A the pipeline dereferences outside the guarded
numeric-coercion step. -/
def REQUIRED_A_COLS : List String :=
  ["measure_name", "state", "facility_name", "excess_readmission_ratio",
   "number_of_discharges"]

/-- The five columns whose provenance the spec assigns to source B. -/
def B_PROVENANCE_COLS : List String :=
  ["facility_name", "city_town", "state", "hospital_type",
   "hospital_ownership"]


/-! ### Concrete inputs used by witnesses and counterexamples -/

/-- A numeric grammar that parses nothing; the concrete rows below carry
already numeric cells. -/
def parseNone : String → Option Rat := fun _ => none

/-- One ordinary source-A row. -/
def exArow : Row :=
  [("facility_id", Value.str "10"),
   ("measure_name", Value.str "READM-30-HF-HRRP"),
   ("excess_readmission_ratio", Value.num 1),
   ("number_of_discharges", Value.num 5),
   ("state", Value.str "TX"), ("facility_name", Value.str "A Hosp")]

/-- An ordinary source-A input with a single valid row. -/
def exA : DataFrame :=
  ⟨["facility_id", "measure_name", "excess_readmission_ratio",
    "number_of_discharges", "state", "facility_name"], [exArow]⟩

/-- One ordinary source-B row for the same facility. -/
def exBrow : Row :=
  [("facility_id", Value.str "10"), ("facility_name", Value.str "B Hosp"),
   ("city_town", Value.str "Austin"), ("state", Value.str "CA"),
   ("hospital_type", Value.str "Acute"),
   ("hospital_ownership", Value.str "Gov")]

/-- An ordinary source-B input with a single row. -/
def exB : DataFrame := ⟨HOSPITAL_INFO_COLS, [exBrow]⟩

/-- The consolidated row the pipeline produces from `exA` and `exB`. -/
def exOutRow : Row :=
  [("facility_id", Value.str "10"),
   ("measure_name", Value.str "READM-30-HF-HRRP"),
   ("excess_readmission_ratio", Value.num 1),
   ("number_of_discharges", Value.num 5),
   ("facility_name", Value.str "B Hosp"), ("city_town", Value.str "Austin"),
   ("state", Value.str "CA"), ("hospital_type", Value.str "Acute"),
   ("hospital_ownership", Value.str "Gov")]

/-- The consolidated table produced from `exA` and `exB`. -/
def exOut : DataFrame :=
  ⟨["facility_id", "measure_name", "excess_readmission_ratio",
    "number_of_discharges", "facility_name", "city_town", "state",
    "hospital_type", "hospital_ownership"], [exOutRow]⟩

/-- A source-A row with the facility identifier 1, duplicated below. -/
def dupArow : Row :=
  [("facility_id", Value.str "1"),
   ("measure_name", Value.str "READM-30-HF-HRRP"),
   ("excess_readmission_ratio", Value.num 1),
   ("number_of_discharges", Value.num 2),
   ("state", Value.str "TX"), ("facility_name", Value.str "H")]

/-- A source-A input holding the same facility identifier twice. -/
def dupA : DataFrame :=
  ⟨["facility_id", "measure_name", "excess_readmission_ratio",
    "number_of_discharges", "state", "facility_name"], [dupArow, dupArow]⟩

/-- A source-B row with the facility identifier 1, duplicated below. -/
def dupBrow : Row :=
  [("facility_id", Value.str "1"), ("facility_name", Value.str "G"),
   ("city_town", Value.str "C"), ("state", Value.str "CA"),
   ("hospital_type", Value.str "T"), ("hospital_ownership", Value.str "O")]

/-- A source-B input holding the same facility identifier twice. -/
def dupB : DataFrame := ⟨HOSPITAL_INFO_COLS, [dupBrow, dupBrow]⟩

/-- A source-A row with the facility identifier 7, duplicated below. -/
def dup3Arow : Row :=
  [("facility_id", Value.str "7"),
   ("measure_name", Value.str "READM-30-HF-HRRP"),
   ("excess_readmission_ratio", Value.num 1),
   ("number_of_discharges", Value.num 2),
   ("state", Value.str "TX"), ("facility_name", Value.str "H")]

/-- A source-A input holding facility 7 twice. -/
def dup3A : DataFrame :=
  ⟨["facility_id", "measure_name", "excess_readmission_ratio",
    "number_of_discharges", "state", "facility_name"], [dup3Arow, dup3Arow]⟩

/-- A source-B row for facility 7. -/
def dup3Brow : Row :=
  [("facility_id", Value.str "7"), ("facility_name", Value.str "G"),
   ("city_town", Value.str "C"), ("state", Value.str "CA"),
   ("hospital_type", Value.str "T"), ("hospital_ownership", Value.str "O")]

/-- A source-B input holding facility 7 once. -/
def dup3B : DataFrame := ⟨HOSPITAL_INFO_COLS, [dup3Brow]⟩

/-- A source-A row that itself carries a `city_town` column. -/
def c6Arow : Row :=
  [("facility_id", Value.str "1"),
   ("measure_name", Value.str "READM-30-HF-HRRP"),
   ("excess_readmission_ratio", Value.num 1),
   ("number_of_discharges", Value.num 2),
   ("state", Value.str "TX"), ("facility_name", Value.str "H"),
   ("city_town", Value.str "AAA")]

/-- A source-A input that carries its own `city_town` column. -/
def c6A : DataFrame :=
  ⟨["facility_id", "measure_name", "excess_readmission_ratio",
    "number_of_discharges", "state", "facility_name", "city_town"], [c6Arow]⟩

/-- A source-B row whose `city_town` differs from source A's. -/
def c6Brow : Row :=
  [("facility_id", Value.str "1"), ("facility_name", Value.str "G"),
   ("city_town", Value.str "BBB"), ("state", Value.str "CA"),
   ("hospital_type", Value.str "T"), ("hospital_ownership", Value.str "O")]

/-- A source-B input whose `city_town` differs from source A's. -/
def c6B : DataFrame := ⟨HOSPITAL_INFO_COLS, [c6Brow]⟩

/-- A source-A input lacking the `measure_name` column. -/
def exA10 : DataFrame := ⟨["facility_id"], []⟩

/-- A stale table for exercising the full-replace write. -/
def exPrior : DataFrame := ⟨["old"], []⟩

/-- A store whose connection succeeds at once. -/
def availTrue : Nat → Bool := fun _ => true

/-- A store that is never reachable. -/
def availFalse : Nat → Bool := fun _ => false

/-! ### Cell-level lemmas -/

theorem cell_nil (c : String) : cell [] c = Value.nan := rfl

theorem cell_cons (n : String) (v : Value) (r : Row) (c : String) :
    cell ((n, v) :: r) c = if n = c then v else cell r c := by
  by_cases h : n = c
  · simp [cell, h]
  · simp [cell, h]

theorem cell_eq_nan_of_keys (r : Row) (c : String) (h : ∀ p ∈ r, p.1 ≠ c) :
    cell r c = Value.nan := by
  unfold cell
  rw [List.find?_eq_none.mpr]
  intro p hp
  simp [h p hp]

theorem cell_filterKeys (r : Row) (cs : List String) (c : String) (hc : c ∉ cs) :
    cell (r.filter (fun p => decide (p.1 ∉ cs))) c = cell r c := by
  induction r with
  | nil => rfl
  | cons p r ih =>
    obtain ⟨n, v⟩ := p
    rw [List.filter_cons]
    by_cases hp : n ∈ cs
    · rw [if_neg (by simp [hp])]
      have hnc : n ≠ c := fun h => hc (h ▸ hp)
      rw [cell_cons, if_neg hnc]
      exact ih
    · rw [if_pos (by simp [hp])]
      rw [cell_cons, cell_cons]
      by_cases hnc : n = c
      · rw [if_pos hnc, if_pos hnc]
      · rw [if_neg hnc, if_neg hnc]
        exact ih

theorem coerceRow_cons (parse : String → Option Rat) (c n : String) (v : Value)
    (r : Row) :
    coerceRow parse c ((n, v) :: r) =
      (if n = c then (n, coerceValue parse v) else (n, v)) ::
        coerceRow parse c r := rfl

theorem cell_coerceRow_same (parse : String → Option Rat) (c : String) (r : Row) :
    cell (coerceRow parse c r) c = coerceValue parse (cell r c) := by
  induction r with
  | nil => rfl
  | cons p r ih =>
    obtain ⟨n, v⟩ := p
    rw [coerceRow_cons]
    by_cases hnc : n = c
    · rw [if_pos hnc, cell_cons, cell_cons, if_pos hnc, if_pos hnc]
    · rw [if_neg hnc, cell_cons, cell_cons, if_neg hnc, if_neg hnc]
      exact ih

theorem cell_coerceRow_ne (parse : String → Option Rat) (c c' : String) (r : Row)
    (h : c' ≠ c) : cell (coerceRow parse c r) c' = cell r c' := by
  induction r with
  | nil => rfl
  | cons p r ih =>
    obtain ⟨n, v⟩ := p
    rw [coerceRow_cons]
    by_cases hnc : n = c
    · rw [if_pos hnc, cell_cons, cell_cons]
      have hnc' : n ≠ c' := fun hh => h (by rw [← hh, hnc])
      rw [if_neg hnc', if_neg hnc']
      exact ih
    · rw [if_neg hnc, cell_cons, cell_cons]
      by_cases hnc' : n = c'
      · rw [if_pos hnc', if_pos hnc']
      · rw [if_neg hnc', if_neg hnc']
        exact ih

theorem cell_selectRow (r : Row) (cs : List String) (c : String) (h : c ∈ cs) :
    cell (cs.map (fun c' => (c', cell r c'))) c = cell r c := by
  induction cs with
  | nil => cases h
  | cons d cs ih =>
    rw [List.map_cons, cell_cons]
    by_cases hdc : d = c
    · simp [hdc]
    · rcases List.mem_cons.mp h with h1 | h2
      · exact absurd h1.symm hdc
      · simp [hdc, ih h2]

theorem cell_append (x y : Row) (c : String) :
    cell (x ++ y) c =
      match x.find? (fun p => decide (p.1 = c)) with
      | some p => p.2
      | none => cell y c := by
  unfold cell
  rw [List.find?_append]
  cases h : x.find? (fun p => decide (p.1 = c)) <;> simp [Option.or]

theorem find?_map_renameIf (ov : List String) (sfx : String) (c : String)
    (a : Row) (hc : c ∉ ov) (hx : ∀ d ∈ ov, ¬(d ++ sfx = c)) :
    (a.map (renameIf ov sfx)).find? (fun p => decide (p.1 = c)) =
      a.find? (fun p => decide (p.1 = c)) := by
  induction a with
  | nil => rfl
  | cons p a ih =>
    rw [List.map_cons]
    by_cases hov : p.1 ∈ ov
    · have h1 : ¬(p.1 ++ sfx = c) := hx p.1 hov
      have h2 : p.1 ≠ c := fun h => hc (h ▸ hov)
      rw [renameIf, if_pos hov]
      rw [List.find?_cons_of_neg _ (by simp [h1]),
        List.find?_cons_of_neg _ (by simp [h2])]
      exact ih
    · rw [renameIf, if_neg hov]
      by_cases hpc : p.1 = c
      · rw [List.find?_cons_of_pos _ (by simp [hpc]),
          List.find?_cons_of_pos _ (by simp [hpc])]
      · rw [List.find?_cons_of_neg _ (by simp [hpc]),
          List.find?_cons_of_neg _ (by simp [hpc])]
        exact ih

theorem cell_rightHalf (ov : List String) (key : String) (b : Row) (c : String)
    (hck : c ≠ key) (hc : c ∉ ov) (hy : ∀ d ∈ ov, ¬(d ++ "_y" = c)) :
    cell ((b.filter (fun p => decide (p.1 ≠ key))).map (renameIf ov "_y")) c =
      cell b c := by
  induction b with
  | nil => rfl
  | cons p b ih =>
    obtain ⟨n, v⟩ := p
    rw [List.filter_cons]
    by_cases hnk : n = key
    · rw [if_neg (by simp [hnk])]
      have hnc : n ≠ c := fun hh => hck (hh ▸ hnk)
      rw [cell_cons, if_neg hnc]
      exact ih
    · rw [if_pos (by simp [hnk]), List.map_cons]
      by_cases hov : n ∈ ov
      · have h1 : ¬(n ++ "_y" = c) := hy n hov
        have h2 : n ≠ c := fun hh => hc (hh ▸ hov)
        have hren : renameIf ov "_y" ((n, v) : String × Value) = (n ++ "_y", v) := by
          simp [renameIf, hov]
        rw [hren, cell_cons, if_neg h1, cell_cons, if_neg h2]
        exact ih
      · have hren : renameIf ov "_y" ((n, v) : String × Value) = (n, v) := by
          simp [renameIf, hov]
        rw [hren, cell_cons, cell_cons]
        by_cases hnc : n = c
        · rw [if_pos hnc, if_pos hnc]
        · rw [if_neg hnc, if_neg hnc]
          exact ih

theorem cell_combineRow_key (ov : List String) (key : String) (a b : Row)
    (hov : key ∉ ov) (hx : ∀ d ∈ ov, ¬(d ++ "_x" = key))
    (hy : ∀ d ∈ ov, ¬(d ++ "_y" = key)) :
    cell (combineRow ov key a b) key = cell a key := by
  rw [combineRow, cell_append, find?_map_renameIf ov "_x" key a hov hx]
  cases h : a.find? (fun p => decide (p.1 = key)) with
  | some p => simp [cell, h]
  | none =>
    rw [cell_eq_nan_of_keys, cell_eq_nan_of_keys]
    · rw [List.find?_eq_none] at h
      intro p hp
      have := h p hp
      simpa using this
    · intro p hp
      rcases List.mem_map.mp hp with ⟨q, hq, hq2⟩
      rcases List.mem_filter.mp hq with ⟨_, hqk⟩
      by_cases hqov : q.1 ∈ ov
      · rw [← hq2, renameIf, if_pos hqov]
        exact hy q.1 hqov
      · rw [← hq2, renameIf, if_neg hqov]
        simpa using hqk

theorem cell_combineRow_left (ov : List String) (key : String) (a b : Row)
    (c : String) (hc : c ∉ ov) (hx : ∀ d ∈ ov, ¬(d ++ "_x" = c))
    (hne : cell a c ≠ Value.nan) :
    cell (combineRow ov key a b) c = cell a c := by
  rw [combineRow, cell_append, find?_map_renameIf ov "_x" c a hc hx]
  cases h : a.find? (fun p => decide (p.1 = c)) with
  | some p => simp [cell, h]
  | none =>
    exact absurd (by simp [cell, h]) hne

theorem cell_combineRow_right (ov : List String) (key : String) (a b : Row)
    (c : String) (hck : c ≠ key) (hc : c ∉ ov)
    (hx : ∀ d ∈ ov, ¬(d ++ "_x" = c)) (hy : ∀ d ∈ ov, ¬(d ++ "_y" = c))
    (ha : ∀ p ∈ a, p.1 ≠ c) :
    cell (combineRow ov key a b) c = cell b c := by
  rw [combineRow, cell_append]
  have hnone : (a.map (renameIf ov "_x")).find? (fun p => decide (p.1 = c)) = none := by
    rw [List.find?_eq_none]
    intro p hp
    rcases List.mem_map.mp hp with ⟨q, hq, hq2⟩
    by_cases hqov : q.1 ∈ ov
    · rw [← hq2, renameIf, if_pos hqov]
      simpa using hx q.1 hqov
    · rw [← hq2, renameIf, if_neg hqov]
      simpa using ha q hq
  rw [hnone]
  exact cell_rightHalf ov key b c hck hc hy

/-! ### Stage-level lemmas -/

theorem coerceCol_cols (parse : String → Option Rat) (df : DataFrame)
    (c : String) : (coerceCol parse df c).cols = df.cols := by
  unfold coerceCol
  split <;> rfl

theorem coerceNumerics_def (parse : String → Option Rat) (df : DataFrame) :
    coerceNumerics parse df =
      coerceCol parse (coerceCol parse df "excess_readmission_ratio")
        "number_of_discharges" := rfl

theorem coerceNumerics_cols (parse : String → Option Rat) (df : DataFrame) :
    (coerceNumerics parse df).cols = df.cols := by
  rw [coerceNumerics_def, coerceCol_cols, coerceCol_cols]

theorem coerceRow_keys (parse : String → Option Rat) (c : String) (r : Row) :
    (coerceRow parse c r).map Prod.fst = r.map Prod.fst := by
  induction r with
  | nil => rfl
  | cons p r ih =>
    obtain ⟨n, v⟩ := p
    rw [coerceRow_cons, List.map_cons, List.map_cons]
    by_cases hnc : n = c
    · rw [if_pos hnc]
      exact congrArg _ ih
    · rw [if_neg hnc]
      exact congrArg _ ih

theorem coerceCol_rows_keys (parse : String → Option Rat) (df : DataFrame)
    (c : String) :
    ∀ r ∈ (coerceCol parse df c).rows, ∃ r0 ∈ df.rows,
      r.map Prod.fst = r0.map Prod.fst := by
  unfold coerceCol
  split
  · intro r hr
    rcases List.mem_map.mp hr with ⟨r0, hr0, hr0e⟩
    exact ⟨r0, hr0, by rw [← hr0e, coerceRow_keys]⟩
  · intro r hr
    exact ⟨r, hr, rfl⟩

theorem dropna_ok_cols {df : DataFrame} {s : List String} {df' : DataFrame}
    (h : dropna df s = Except.ok df') : df'.cols = df.cols := by
  unfold dropna at h
  cases hf : s.find? (fun c => decide (c ∉ df.cols)) with
  | some c => rw [hf] at h; cases h
  | none => rw [hf] at h; cases h; rfl

theorem dropna_ok_sub {df : DataFrame} {s : List String} {df' : DataFrame}
    (h : dropna df s = Except.ok df') : ∀ c ∈ s, c ∈ df.cols := by
  unfold dropna at h
  cases hf : s.find? (fun c => decide (c ∉ df.cols)) with
  | some c => rw [hf] at h; cases h
  | none =>
    intro c hc
    have := List.find?_eq_none.mp hf c hc
    simpa using this

theorem dropna_ok_rows {df : DataFrame} {s : List String} {df' : DataFrame}
    (h : dropna df s = Except.ok df') :
    df'.rows = df.rows.filter
      (fun r => s.all (fun c => decide (cell r c ≠ Value.nan))) := by
  unfold dropna at h
  cases hf : s.find? (fun c => decide (c ∉ df.cols)) with
  | some c => rw [hf] at h; cases h
  | none => rw [hf] at h; cases h; rfl

theorem dropna_mem {df : DataFrame} {s : List String} {df' : DataFrame} {r : Row}
    (h : dropna df s = Except.ok df') (hr : r ∈ df'.rows) :
    r ∈ df.rows ∧ ∀ c ∈ s, cell r c ≠ Value.nan := by
  rw [dropna_ok_rows h] at hr
  rcases List.mem_filter.mp hr with ⟨h1, h2⟩
  refine ⟨h1, fun c hc => ?_⟩
  have := List.all_eq_true.mp h2 c hc
  simpa using this

theorem filterEq_ok_cols {df : DataFrame} {c : String} {v : Value}
    {df' : DataFrame} (h : filterEq df c v = Except.ok df') :
    df'.cols = df.cols := by
  unfold filterEq at h
  split at h
  · cases h; rfl
  · cases h

theorem filterEq_ok_colin {df : DataFrame} {c : String} {v : Value}
    {df' : DataFrame} (h : filterEq df c v = Except.ok df') : c ∈ df.cols := by
  unfold filterEq at h
  split at h
  · assumption
  · cases h

theorem filterEq_ok_rows {df : DataFrame} {c : String} {v : Value}
    {df' : DataFrame} (h : filterEq df c v = Except.ok df') :
    df'.rows = df.rows.filter (fun r => decide (cell r c = v)) := by
  unfold filterEq at h
  split at h
  · cases h; rfl
  · cases h

theorem filterEq_mem {df : DataFrame} {c : String} {v : Value} {df' : DataFrame}
    {r : Row} (h : filterEq df c v = Except.ok df') (hr : r ∈ df'.rows) :
    r ∈ df.rows ∧ cell r c = v := by
  rw [filterEq_ok_rows h] at hr
  rcases List.mem_filter.mp hr with ⟨h1, h2⟩
  exact ⟨h1, by simpa using h2⟩

theorem selectCols_ok_cols {df : DataFrame} {cs : List String} {df' : DataFrame}
    (h : selectCols df cs = Except.ok df') : df'.cols = cs := by
  unfold selectCols at h
  cases hf : cs.find? (fun c => decide (c ∉ df.cols)) with
  | some c => rw [hf] at h; cases h
  | none => rw [hf] at h; cases h; rfl

theorem selectCols_ok_sub {df : DataFrame} {cs : List String} {df' : DataFrame}
    (h : selectCols df cs = Except.ok df') : ∀ c ∈ cs, c ∈ df.cols := by
  unfold selectCols at h
  cases hf : cs.find? (fun c => decide (c ∉ df.cols)) with
  | some c => rw [hf] at h; cases h
  | none =>
    intro c hc
    have := List.find?_eq_none.mp hf c hc
    simpa using this

theorem selectCols_ok_rows {df : DataFrame} {cs : List String} {df' : DataFrame}
    (h : selectCols df cs = Except.ok df') :
    df'.rows = df.rows.map (fun r => cs.map (fun c => (c, cell r c))) := by
  unfold selectCols at h
  cases hf : cs.find? (fun c => decide (c ∉ df.cols)) with
  | some c => rw [hf] at h; cases h
  | none => rw [hf] at h; cases h; rfl

theorem dropCols_ok_cols {df : DataFrame} {cs : List String} {df' : DataFrame}
    (h : dropCols df cs = Except.ok df') :
    df'.cols = df.cols.filter (fun c => decide (c ∉ cs)) := by
  unfold dropCols at h
  cases hf : cs.find? (fun c => decide (c ∉ df.cols)) with
  | some c => rw [hf] at h; cases h
  | none => rw [hf] at h; cases h; rfl

theorem dropCols_ok_sub {df : DataFrame} {cs : List String} {df' : DataFrame}
    (h : dropCols df cs = Except.ok df') : ∀ c ∈ cs, c ∈ df.cols := by
  unfold dropCols at h
  cases hf : cs.find? (fun c => decide (c ∉ df.cols)) with
  | some c => rw [hf] at h; cases h
  | none =>
    intro c hc
    have := List.find?_eq_none.mp hf c hc
    simpa using this

theorem dropCols_ok_rows {df : DataFrame} {cs : List String} {df' : DataFrame}
    (h : dropCols df cs = Except.ok df') :
    df'.rows = df.rows.map (fun r => r.filter (fun p => decide (p.1 ∉ cs))) := by
  unfold dropCols at h
  cases hf : cs.find? (fun c => decide (c ∉ df.cols)) with
  | some c => rw [hf] at h; cases h
  | none => rw [hf] at h; cases h; rfl

theorem merge_ok {l r : DataFrame} {key : String} {out : DataFrame}
    (h : merge l r key = Except.ok out) :
    key ∈ l.cols ∧ key ∈ r.cols ∧
      out.rows = (l.rows.map (fun a =>
        (r.rows.filter (fun b => decide (cell b key = cell a key))).map
          (combineRow (overlapOf l.cols key r.cols) key a))).flatten := by
  unfold merge at h
  by_cases h1 : key ∈ l.cols
  · rw [if_pos h1] at h
    by_cases h2 : key ∈ r.cols
    · rw [if_pos h2] at h
      simp only [Except.ok.injEq] at h
      exact ⟨h1, h2, by rw [← h]; rfl⟩
    · rw [if_neg h2] at h; cases h
  · rw [if_neg h1] at h; cases h

theorem coerceValue_num_or_nan (parse : String → Option Rat) (v : Value) :
    (∃ q, coerceValue parse v = Value.num q) ∨ coerceValue parse v = Value.nan := by
  cases v with
  | str s =>
    cases hp : parse s with
    | some q => exact Or.inl ⟨q, by simp [coerceValue, hp]⟩
    | none => exact Or.inr (by simp [coerceValue, hp])
  | num q => exact Or.inl ⟨q, rfl⟩
  | nan => exact Or.inr rfl

theorem prepA_ok {parse : String → Option Rat} {A af : DataFrame}
    (h : prepA parse A = Except.ok af) :
    ∃ a1, dropna (coerceNumerics parse (normalizeHeaders A)) COLS_TO_NUMERIC =
        Except.ok a1 ∧
      filterEq a1 "measure_name" (Value.str TARGET_MEASURE) = Except.ok af := by
  unfold prepA at h
  cases hd : dropna (coerceNumerics parse (normalizeHeaders A)) COLS_TO_NUMERIC with
  | error e => rw [hd] at h; cases h
  | ok a1 => rw [hd] at h; exact ⟨a1, rfl, h⟩

theorem transform_ok {parse : String → Option Rat} {A B out : DataFrame}
    (h : transform parse A B = Except.ok out) :
    ∃ af bs af2, prepA parse A = Except.ok af ∧ prepB B = Except.ok bs ∧
      dropCols af DROP_COLS = Except.ok af2 ∧
      merge af2 bs "facility_id" = Except.ok out := by
  unfold transform at h
  split at h
  · cases h
  · rename_i af heqA
    split at h
    · cases h
    · rename_i bs heqB
      split at h
      · cases h
      · rename_i af2 heqC
        exact ⟨af, bs, af2, heqA, heqB, heqC, h⟩

theorem prepA_ok_cols {parse : String → Option Rat} {A af : DataFrame}
    (h : prepA parse A = Except.ok af) :
    af.cols = (normalizeHeaders A).cols := by
  rcases prepA_ok h with ⟨a1, hd, hf⟩
  rw [filterEq_ok_cols hf, dropna_ok_cols hd, coerceNumerics_cols]

/-- What prepA guarantees about every retained row: the measure matched
and both numeric fields hold parsed numbers. -/
theorem prepA_rows {parse : String → Option Rat} {A af : DataFrame}
    (h : prepA parse A = Except.ok af) :
    ∀ r ∈ af.rows,
      cell r "measure_name" = Value.str TARGET_MEASURE ∧
      (∃ q, cell r "excess_readmission_ratio" = Value.num q) ∧
      (∃ q, cell r "number_of_discharges" = Value.num q) := by
  rcases prepA_ok h with ⟨a1, hd, hf⟩
  intro r hr
  rcases filterEq_mem hf hr with ⟨hr1, hm⟩
  rcases dropna_mem hd hr1 with ⟨hr0, hnn⟩
  have hnnE : cell r "excess_readmission_ratio" ≠ Value.nan :=
    hnn _ (by simp [COLS_TO_NUMERIC])
  have hnnN : cell r "number_of_discharges" ≠ Value.nan :=
    hnn _ (by simp [COLS_TO_NUMERIC])
  have hsubE : "excess_readmission_ratio" ∈
      (coerceNumerics parse (normalizeHeaders A)).cols :=
    dropna_ok_sub hd _ (by simp [COLS_TO_NUMERIC])
  have hsubN : "number_of_discharges" ∈
      (coerceNumerics parse (normalizeHeaders A)).cols :=
    dropna_ok_sub hd _ (by simp [COLS_TO_NUMERIC])
  rw [coerceNumerics_cols] at hsubE hsubN
  rw [coerceNumerics_def] at hr0
  have hcolsE : "excess_readmission_ratio" ∈
      (coerceCol parse (normalizeHeaders A) "excess_readmission_ratio").cols := by
    rw [coerceCol_cols]; exact hsubE
  rw [coerceCol, if_pos (by rw [coerceCol_cols]; exact hsubN)] at hr0
  rcases List.mem_map.mp hr0 with ⟨r1, hr1mem, hr1e⟩
  rw [coerceCol, if_pos hsubE] at hr1mem
  rcases List.mem_map.mp hr1mem with ⟨r2, _, hr2e⟩
  have heq1 : cell r "number_of_discharges" =
      coerceValue parse (cell r1 "number_of_discharges") := by
    rw [← hr1e, cell_coerceRow_same]
  have heq2 : cell r "excess_readmission_ratio" =
      coerceValue parse (cell r2 "excess_readmission_ratio") := by
    rw [← hr1e, cell_coerceRow_ne _ _ _ _ (by decide), ← hr2e,
      cell_coerceRow_same]
  refine ⟨hm, ?_, ?_⟩
  · rcases coerceValue_num_or_nan parse (cell r2 "excess_readmission_ratio") with
      ⟨q, hq⟩ | hq
    · exact ⟨q, by rw [heq2, hq]⟩
    · exact absurd (by rw [heq2, hq]) hnnE
  · rcases coerceValue_num_or_nan parse (cell r1 "number_of_discharges") with
      ⟨q, hq⟩ | hq
    · exact ⟨q, by rw [heq1, hq]⟩
    · exact absurd (by rw [heq1, hq]) hnnN

theorem prepA_rows_keys {parse : String → Option Rat} {A af : DataFrame}
    (h : prepA parse A = Except.ok af) :
    ∀ r ∈ af.rows, ∃ r0 ∈ (normalizeHeaders A).rows,
      r.map Prod.fst = r0.map Prod.fst := by
  rcases prepA_ok h with ⟨a1, hd, hf⟩
  intro r hr
  have hr1 : r ∈ (coerceNumerics parse (normalizeHeaders A)).rows :=
    (dropna_mem hd (filterEq_mem hf hr).1).1
  rw [coerceNumerics_def] at hr1
  rcases coerceCol_rows_keys parse _ _ r hr1 with ⟨r1, hr1m, hk1⟩
  rcases coerceCol_rows_keys parse _ _ r1 hr1m with ⟨r0, hr0m, hk0⟩
  exact ⟨r0, hr0m, by rw [hk1, hk0]⟩

/-! ### Overlap-set facts for the one merge call of the pipeline -/

theorem mem_overlapOf {lcols rcols : List String} {key d : String}
    (hd : d ∈ overlapOf lcols key rcols) :
    d ∈ lcols ∧ d ≠ key ∧ d ∈ rcols := by
  rcases List.mem_filter.mp hd with ⟨h1, h2⟩
  simp only [decide_eq_true_eq] at h2
  exact ⟨h1, h2.1, h2.2⟩

theorem key_not_mem_overlapOf (lcols : List String) (key : String)
    (rcols : List String) : key ∉ overlapOf lcols key rcols :=
  fun hd => (mem_overlapOf hd).2.1 rfl

theorem overlap_five {lcols : List String} {d : String}
    (hd : d ∈ overlapOf lcols "facility_id" HOSPITAL_INFO_COLS) :
    d = "facility_name" ∨ d = "city_town" ∨ d = "state" ∨
      d = "hospital_type" ∨ d = "hospital_ownership" := by
  rcases mem_overlapOf hd with ⟨_, hne, hmem⟩
  rw [HOSPITAL_INFO_COLS] at hmem
  simp only [List.mem_cons, List.not_mem_nil, or_false] at hmem
  rcases hmem with h | h | h | h | h | h
  · exact absurd h hne
  · exact Or.inl h
  · exact Or.inr (Or.inl h)
  · exact Or.inr (Or.inr (Or.inl h))
  · exact Or.inr (Or.inr (Or.inr (Or.inl h)))
  · exact Or.inr (Or.inr (Or.inr (Or.inr h)))

theorem overlap_sfx_x {lcols : List String} {d : String}
    (hd : d ∈ overlapOf lcols "facility_id" HOSPITAL_INFO_COLS) :
    (d ++ "_x") ∉ ALL_TARGETS := by
  rcases overlap_five hd with h | h | h | h | h <;> subst h <;> decide

theorem overlap_sfx_y {lcols : List String} {d : String}
    (hd : d ∈ overlapOf lcols "facility_id" HOSPITAL_INFO_COLS) :
    (d ++ "_y") ∉ ALL_TARGETS := by
  rcases overlap_five hd with h | h | h | h | h <;> subst h <;> decide

theorem overlap_sfx_x_ne {lcols : List String} {c : String}
    (hc : c ∈ ALL_TARGETS) :
    ∀ d ∈ overlapOf lcols "facility_id" HOSPITAL_INFO_COLS,
      ¬(d ++ "_x" = c) :=
  fun _ hd heq => (heq ▸ overlap_sfx_x hd) hc

theorem overlap_sfx_y_ne {lcols : List String} {c : String}
    (hc : c ∈ ALL_TARGETS) :
    ∀ d ∈ overlapOf lcols "facility_id" HOSPITAL_INFO_COLS,
      ¬(d ++ "_y" = c) :=
  fun _ hd heq => (heq ▸ overlap_sfx_y hd) hc

theorem not_mem_overlap_of_not_five {lcols : List String} {c : String}
    (h1 : c ≠ "facility_name") (h2 : c ≠ "city_town") (h3 : c ≠ "state")
    (h4 : c ≠ "hospital_type") (h5 : c ≠ "hospital_ownership") :
    c ∉ overlapOf lcols "facility_id" HOSPITAL_INFO_COLS := by
  intro hd
  rcases overlap_five hd with h | h | h | h | h
  exacts [h1 h, h2 h, h3 h, h4 h, h5 h]

/-! ### Counting lemmas -/

theorem sum_map_zero {α : Type} (l : List α) (f : α → Nat)
    (h : ∀ a ∈ l, f a = 0) : (l.map f).sum = 0 := by
  induction l with
  | nil => rfl
  | cons a l ih =>
    rw [List.map_cons, List.sum_cons, h a (by simp),
      ih (fun b hb => h b (by simp [hb]))]

theorem sum_map_add {α : Type} (l : List α) (f g : α → Nat) :
    (l.map (fun a => f a + g a)).sum = (l.map f).sum + (l.map g).sum := by
  induction l with
  | nil => rfl
  | cons a l ih =>
    rw [List.map_cons, List.sum_cons, List.map_cons, List.sum_cons,
      List.map_cons, List.sum_cons, ih]
    omega

theorem sum_map_le_length {α : Type} (l : List α) (f : α → Nat)
    (h : ∀ a ∈ l, f a ≤ 1) : (l.map f).sum ≤ l.length := by
  induction l with
  | nil => simp
  | cons a l ih =>
    rw [List.map_cons, List.sum_cons, List.length_cons]
    have h1 := h a (by simp)
    have h2 := ih (fun b hb => h b (by simp [hb]))
    omega

theorem countP_le_one_of_nodup {α β : Type} [DecidableEq β] (k : α → β)
    (l : List α) (h : (l.map k).Nodup) (v : β) :
    l.countP (fun x => decide (k x = v)) ≤ 1 := by
  induction l with
  | nil => simp
  | cons a l ih =>
    rw [List.map_cons, List.nodup_cons] at h
    rw [List.countP_cons]
    by_cases hv : k a = v
    · have hz : l.countP (fun x => decide (k x = v)) = 0 := by
        rw [List.countP_eq_zero]
        intro b hb
        simp only [decide_eq_true_eq]
        intro hbv
        exact h.1 (List.mem_map.mpr ⟨b, hb, hbv.trans hv.symm⟩)
      simp [hz, hv]
    · rw [if_neg (by simp [hv]), Nat.add_zero]
      exact ih h.2

theorem sum_indicator_le_one {β : Type} [DecidableEq β] (keys : List β)
    (hk : keys.Nodup) (w : β) :
    (keys.map (fun v => if w = v then 1 else 0)).sum ≤ 1 := by
  induction keys with
  | nil => simp
  | cons v keys ih =>
    rw [List.nodup_cons] at hk
    rw [List.map_cons, List.sum_cons]
    by_cases hv : w = v
    · have hz : (keys.map (fun v' => if w = v' then 1 else 0)).sum = 0 := by
        apply sum_map_zero
        intro b hb
        rw [if_neg]
        intro hwb
        exact hk.1 (by rw [← hv.symm.trans hwb] at hb; exact hb)
      rw [if_pos hv, hz]
    · rw [if_neg hv, Nat.zero_add]
      exact ih hk.2

theorem sum_countP_le_length {α β : Type} [DecidableEq β] (k : α → β)
    (keys : List β) (hk : keys.Nodup) (l : List α) :
    (keys.map (fun v => l.countP (fun x => decide (k x = v)))).sum ≤
      l.length := by
  induction l with
  | nil =>
    rw [sum_map_zero]
    · simp
    · intro v _
      simp
  | cons a l ih =>
    have hsplit :
        (keys.map (fun v => (a :: l).countP (fun x => decide (k x = v)))).sum =
        (keys.map (fun v => l.countP (fun x => decide (k x = v)))).sum +
        (keys.map (fun v => if k a = v then 1 else 0)).sum := by
      rw [← sum_map_add]
      apply congrArg List.sum
      apply List.map_congr_left
      intro v _
      rw [List.countP_cons]
      by_cases hv : k a = v
      · rw [if_pos hv, if_pos (by simp [hv])]
      · rw [if_neg hv, if_neg (by simp [hv])]
    rw [hsplit, List.length_cons]
    have h1 := sum_indicator_le_one keys hk (k a)
    omega

theorem countP_const_true {α : Type} (l : List α) :
    l.countP (fun _ => true) = l.length := by
  induction l with
  | nil => rfl
  | cons a l ih => rw [List.countP_cons, ih]; simp

theorem countP_const {α : Type} (l : List α) (b : Bool) :
    l.countP (fun _ => b) = if b then l.length else 0 := by
  cases b with
  | true => simp [countP_const_true]
  | false => simp

/-! ### Merge-level reasoning -/

theorem merge_mem_rows {l r : DataFrame} {key : String} {out : DataFrame}
    (h : merge l r key = Except.ok out) :
    ∀ rr ∈ out.rows, ∃ a ∈ l.rows, ∃ b ∈ r.rows,
      cell b key = cell a key ∧
      rr = combineRow (overlapOf l.cols key r.cols) key a b := by
  rcases merge_ok h with ⟨_, _, hrows⟩
  intro rr hrr
  rw [hrows] at hrr
  rcases List.mem_flatten.mp hrr with ⟨sub, hsub, hrrs⟩
  rcases List.mem_map.mp hsub with ⟨a, ha, hae⟩
  rw [← hae] at hrrs
  rcases List.mem_map.mp hrrs with ⟨b, hbf, hbe⟩
  rcases List.mem_filter.mp hbf with ⟨hb, hbk⟩
  exact ⟨a, ha, b, hb, by simpa using hbk, hbe.symm⟩

theorem merge_rows_length {l r : DataFrame} {key : String} {out : DataFrame}
    (h : merge l r key = Except.ok out) :
    out.rows.length = (l.rows.map (fun a =>
      r.rows.countP (fun b => decide (cell b key = cell a key)))).sum := by
  rcases merge_ok h with ⟨_, _, hrows⟩
  rw [hrows, List.length_flatten, List.map_map]
  apply congrArg List.sum
  apply List.map_congr_left
  intro a _
  simp [List.countP_eq_length_filter]

theorem merge_rows_countP {l r : DataFrame} {key : String} {out : DataFrame}
    (h : merge l r key = Except.ok out) (p : Row → Bool) :
    out.rows.countP p = (l.rows.map (fun a =>
      ((r.rows.filter (fun b => decide (cell b key = cell a key))).map
        (combineRow (overlapOf l.cols key r.cols) key a)).countP p)).sum := by
  rcases merge_ok h with ⟨_, _, hrows⟩
  rw [hrows, List.countP_flatten, List.map_map]
  rfl

theorem sum_if_le_one {α β : Type} [DecidableEq β] (l : List α) (k : α → β)
    (v : β) (hk : (l.map k).Nodup) (c : α → Nat) (hc : ∀ a ∈ l, c a ≤ 1) :
    (l.map (fun a => if k a = v then c a else 0)).sum ≤ 1 := by
  induction l with
  | nil => simp
  | cons a l ih =>
    rw [List.map_cons, List.nodup_cons] at hk
    rw [List.map_cons, List.sum_cons]
    by_cases hv : k a = v
    · have hz : (l.map (fun a' => if k a' = v then c a' else 0)).sum = 0 := by
        apply sum_map_zero
        intro b hb
        rw [if_neg]
        intro hbv
        exact hk.1 (List.mem_map.mpr ⟨b, hb, hbv.trans hv.symm⟩)
      rw [if_pos hv, hz, Nat.add_zero]
      exact hc a (by simp)
    · rw [if_neg hv, Nat.zero_add]
      exact ih hk.2 (fun b hb => hc b (by simp [hb]))

theorem dropCols_cell {df : DataFrame} {cs : List String} {df' : DataFrame}
    (h : dropCols df cs = Except.ok df') :
    ∀ r' ∈ df'.rows, ∃ r ∈ df.rows, ∀ c, c ∉ cs → cell r' c = cell r c := by
  intro r' hr'
  rw [dropCols_ok_rows h] at hr'
  rcases List.mem_map.mp hr' with ⟨r, hrm, hre⟩
  exact ⟨r, hrm, fun c hc => by rw [← hre, cell_filterKeys r cs c hc]⟩

theorem prepB_rows {B bs : DataFrame} (hB : prepB B = Except.ok bs) :
    bs.rows = (normalizeHeaders B).rows.map
      (fun r => HOSPITAL_INFO_COLS.map (fun c => (c, cell r c))) := by
  unfold prepB at hB
  exact selectCols_ok_rows hB

theorem prepB_cols {B bs : DataFrame} (hB : prepB B = Except.ok bs) :
    bs.cols = HOSPITAL_INFO_COLS := by
  unfold prepB at hB
  exact selectCols_ok_cols hB

theorem prepB_map_rowKey {B bs : DataFrame} (hB : prepB B = Except.ok bs) :
    bs.rows.map rowKey = (normalizeHeaders B).rows.map rowKey := by
  rw [prepB_rows hB, List.map_map]
  apply List.map_congr_left
  intro b0 _
  show rowKey (HOSPITAL_INFO_COLS.map fun c => (c, cell b0 c)) = rowKey b0
  unfold rowKey
  exact cell_selectRow b0 HOSPITAL_INFO_COLS "facility_id" (by decide)

theorem dropCols_map_rowKey {df : DataFrame} {df' : DataFrame}
    (h : dropCols df DROP_COLS = Except.ok df') :
    df'.rows.map rowKey = df.rows.map rowKey := by
  rw [dropCols_ok_rows h, List.map_map]
  apply List.map_congr_left
  intro a0 _
  show rowKey (a0.filter fun p => decide (p.1 ∉ DROP_COLS)) = rowKey a0
  unfold rowKey
  exact cell_filterKeys a0 DROP_COLS "facility_id" (by decide)

/-- Facts about the left input row of every merged pair: the measure
matched and both numeric fields hold parsed numbers. -/
theorem af2_row_facts {parse : String → Option Rat} {A af af2 : DataFrame}
    (hA : prepA parse A = Except.ok af)
    (hD : dropCols af DROP_COLS = Except.ok af2) :
    ∀ a ∈ af2.rows,
      cell a "measure_name" = Value.str TARGET_MEASURE ∧
      (∃ q, cell a "excess_readmission_ratio" = Value.num q) ∧
      (∃ q, cell a "number_of_discharges" = Value.num q) := by
  intro a ha
  rcases dropCols_cell hD a ha with ⟨a0, ha0, hcell⟩
  rcases prepA_rows hA a0 ha0 with ⟨hm, ⟨q1, he⟩, ⟨q2, hn⟩⟩
  refine ⟨?_, ⟨q1, ?_⟩, ⟨q2, ?_⟩⟩
  · rw [hcell _ (by decide), hm]
  · rw [hcell _ (by decide), he]
  · rw [hcell _ (by decide), hn]

theorem lookupTable_writeTable (s : Store) (n : String) (df : DataFrame) :
    lookupTable (writeTable s n df) n = some df := by
  simp [lookupTable, writeTable]

theorem retryLoopAux_attempts (avail : Nat → Bool) (made r : Nat) :
    (retryLoopAux avail made r).attempts ≤ made + r := by
  induction r generalizing made with
  | zero => simp [retryLoopAux]
  | succ r ih =>
    by_cases h : avail made
    · have h1 : (retryLoopAux avail made (r + 1)).attempts = made + 1 := by
        simp [retryLoopAux, h]
      omega
    · have hf : avail made = false := by simpa using h
      have h1 : (retryLoopAux avail made (r + 1)).attempts =
          (retryLoopAux avail (made + 1) r).attempts := by
        simp [retryLoopAux, hf]
      have h2 := ih (made + 1)
      omega

theorem retryLoopAux_sleeps (avail : Nat → Bool) (made r : Nat) :
    ∀ d ∈ (retryLoopAux avail made r).sleeps, d = 10 := by
  induction r generalizing made with
  | zero => intro d hd; simp [retryLoopAux] at hd
  | succ r ih =>
    intro d hd
    by_cases h : avail made
    · simp [retryLoopAux, h] at hd
    · have hf : avail made = false := by simpa using h
      rw [show (retryLoopAux avail made (r + 1)).sleeps =
          10 :: (retryLoopAux avail (made + 1) r).sleeps from by
        simp [retryLoopAux, hf]] at hd
      rcases List.mem_cons.mp hd with h10 | hd2
      · exact h10
      · exact ih (made + 1) d hd2

/-! ### Claim theorems -/

/-- C5: for every input pair on which the pipeline succeeds, a source-A
row whose measure-name field differs from the target code
`READM-30-HF-HRRP` (case-sensitive exact match) never appears in the
output: every output row carries exactly the target measure code. -/
theorem C5_measure_exact {parse : String → Option Rat} {A B out : DataFrame}
    (h : transform parse A B = Except.ok out) :
    ∀ r ∈ out.rows, cell r "measure_name" = Value.str TARGET_MEASURE := by
  rcases transform_ok h with ⟨af, bs, af2, hA, hB, hD, hM⟩
  have hbc : bs.cols = HOSPITAL_INFO_COLS := prepB_cols hB
  intro r hr
  rcases merge_mem_rows hM r hr with ⟨a, ha, b, hb, hkey, hcomb⟩
  rw [hbc] at hcomb
  rcases af2_row_facts hA hD a ha with ⟨hm, _, _⟩
  rw [hcomb, cell_combineRow_left _ _ _ _ _
    (not_mem_overlap_of_not_five (by decide) (by decide) (by decide)
      (by decide) (by decide))
    (overlap_sfx_x_ne (by decide))
    (by rw [hm]; decide)]
  exact hm

/-- C4: a source-A row in which either designated numeric field failed
numeric parsing never appears in the output: the failing cell is coerced
to the missing marker (never a fatal error), and since incomplete rows
are dropped before the join, every output row holds a parsed number in
both fields. -/
theorem C4_unparseable_never_output {parse : String → Option Rat}
    {A B out : DataFrame} (h : transform parse A B = Except.ok out) :
    (∀ s, parse s = none → coerceValue parse (Value.str s) = Value.nan) ∧
    ∀ r ∈ out.rows,
      (∃ q, cell r "excess_readmission_ratio" = Value.num q) ∧
      (∃ q, cell r "number_of_discharges" = Value.num q) := by
  refine ⟨fun s hs => by simp [coerceValue, hs], ?_⟩
  rcases transform_ok h with ⟨af, bs, af2, hA, hB, hD, hM⟩
  have hbc : bs.cols = HOSPITAL_INFO_COLS := prepB_cols hB
  intro r hr
  rcases merge_mem_rows hM r hr with ⟨a, ha, b, hb, hkey, hcomb⟩
  rw [hbc] at hcomb
  rcases af2_row_facts hA hD a ha with ⟨_, ⟨q1, he⟩, ⟨q2, hn⟩⟩
  constructor
  · refine ⟨q1, ?_⟩
    rw [hcomb, cell_combineRow_left _ _ _ _ _
      (not_mem_overlap_of_not_five (by decide) (by decide) (by decide)
        (by decide) (by decide))
      (overlap_sfx_x_ne (by decide))
      (by rw [he]; simp)]
    exact he
  · refine ⟨q2, ?_⟩
    rw [hcomb, cell_combineRow_left _ _ _ _ _
      (not_mem_overlap_of_not_five (by decide) (by decide) (by decide)
        (by decide) (by decide))
      (overlap_sfx_x_ne (by decide))
      (by rw [hn]; simp)]
    exact hn

/-- C2: when an exception is raised during the final write, the store is
left exactly as it was (the write is all-or-nothing at the table level,
per the external store contract), the run ends with the write-failed
outcome, and no later step writes; for any write outcome the store is
either untouched or holds the fully replaced table. -/
theorem C2_failed_write_commits_nothing {parse : String → Option Rat}
    {A B df : DataFrame} {avail : Nat → Bool} {store : Store}
    (hT : transform parse A B = Except.ok df)
    (hC : (retryConnect avail).connected = true) :
    runPipeline parse (some A) (some B) avail false store =
      (store, Outcome.writeFailed) ∧
    ∀ wk, (runPipeline parse (some A) (some B) avail wk store).1 = store ∨
      (runPipeline parse (some A) (some B) avail wk store).1 =
        writeTable store TABLE_NAME df := by
  constructor
  · simp [runPipeline, hT, hC]
  · intro wk
    cases wk with
    | false => exact Or.inl (by simp [runPipeline, hT, hC])
    | true => exact Or.inr (by simp [runPipeline, hT, hC])

/-- C7: when either input file is missing, the pipeline aborts before any
store write is attempted and the store is left untouched. -/
theorem C7_missing_input_aborts {parse : String → Option Rat}
    {inA inB : Option DataFrame} {avail : Nat → Bool} {wk : Bool}
    {store : Store} (h : inA = none ∨ inB = none) :
    runPipeline parse inA inB avail wk store = (store, Outcome.missingInput) := by
  rcases h with h | h
  · subst h; rfl
  · subst h
    cases inA with
    | none => rfl
    | some A => rfl

/-- C8: the transform is deterministic and the write fully replaces the
destination table, so a successful run installs exactly the transform's
output whatever the store held before — in particular two consecutive
runs on unchanged inputs leave identical tables. -/
theorem C8_idempotent_full_replace {parse : String → Option Rat}
    {A B df : DataFrame} {avail : Nat → Bool}
    (hT : transform parse A B = Except.ok df)
    (hC : (retryConnect avail).connected = true) :
    ∀ store1 store2 : Store,
      lookupTable (runPipeline parse (some A) (some B) avail true store1).1
        TABLE_NAME = some df ∧
      lookupTable (runPipeline parse (some A) (some B) avail true store2).1
        TABLE_NAME = some df ∧
      (runPipeline parse (some A) (some B) avail true store1).2 =
        Outcome.success := by
  have hrun : ∀ s : Store, runPipeline parse (some A) (some B) avail true s =
      (writeTable s TABLE_NAME df, Outcome.success) := by
    intro s
    simp [runPipeline, hT, hC]
  intro store1 store2
  rw [hrun store1, hrun store2]
  exact ⟨lookupTable_writeTable _ _ _, lookupTable_writeTable _ _ _, rfl⟩

/-- C9: the store-connection retry loop makes at most 5 attempts with a
fixed 10-second delay after each failure, hence terminates; exhausting
the bound without connecting aborts the run before any write, leaving
the store untouched. -/
theorem C9_bounded_retry {avail : Nat → Bool} {parse : String → Option Rat}
    {A B df : DataFrame} {wk : Bool} {store : Store}
    (hT : transform parse A B = Except.ok df) :
    (retryConnect avail).attempts ≤ 5 ∧
    (∀ d ∈ (retryConnect avail).sleeps, d = 10) ∧
    ((retryConnect avail).connected = false →
      runPipeline parse (some A) (some B) avail wk store =
        (store, Outcome.connectFailed)) := by
  refine ⟨?_, retryLoopAux_sleeps avail 0 5, ?_⟩
  · have := retryLoopAux_attempts avail 0 5
    simpa [retryConnect] using this
  · intro hc
    simp [runPipeline, hT, hc]

/-- C10: the pipeline implicitly requires, after header normalization,
the listed columns of each source; if any is absent the transform fails
with an uncaught `KeyError` rather than tolerating or categorizing it. -/
theorem C10_required_columns {parse : String → Option Rat} {A B : DataFrame}
    (h : (∃ c ∈ REQUIRED_A_COLS, c ∉ (normalizeHeaders A).cols) ∨
      (∃ c ∈ HOSPITAL_INFO_COLS, c ∉ (normalizeHeaders B).cols)) :
    ∃ c, transform parse A B = Except.error (ETLError.keyError c) := by
  cases ht : transform parse A B with
  | error e =>
    cases e with
    | keyError c => exact ⟨c, rfl⟩
  | ok out =>
    exfalso
    rcases transform_ok ht with ⟨af, bs, af2, hA, hB, hD, hM⟩
    rcases prepA_ok hA with ⟨a1, hd, hf⟩
    have hnum : ∀ c ∈ COLS_TO_NUMERIC, c ∈ (normalizeHeaders A).cols := by
      intro c hc
      have := dropna_ok_sub hd c hc
      rwa [coerceNumerics_cols] at this
    have hmeas : "measure_name" ∈ (normalizeHeaders A).cols := by
      have := filterEq_ok_colin hf
      rwa [dropna_ok_cols hd, coerceNumerics_cols] at this
    have hdropP : ∀ c ∈ DROP_COLS, c ∈ (normalizeHeaders A).cols := by
      intro c hc
      have := dropCols_ok_sub hD c hc
      rwa [prepA_ok_cols hA] at this
    have hbsub : ∀ c ∈ HOSPITAL_INFO_COLS, c ∈ (normalizeHeaders B).cols := by
      unfold prepB at hB
      exact selectCols_ok_sub hB
    rcases h with ⟨c, hc, hnot⟩ | ⟨c, hc, hnot⟩
    · rw [REQUIRED_A_COLS] at hc
      simp only [List.mem_cons, List.not_mem_nil, or_false] at hc
      rcases hc with h1 | h1 | h1 | h1 | h1 <;> subst h1
      · exact hnot hmeas
      · exact hnot (hdropP _ (by decide))
      · exact hnot (hdropP _ (by decide))
      · exact hnot (hnum _ (by decide))
      · exact hnot (hnum _ (by decide))
    · exact hnot (hbsub c hc)

/-- C1 (amended): every output row's facility identifier appears in both
the filtered source-A rows and normalized source B; and provided the
facility identifier is unique within each source, the output row count
is at most the minimum of the filtered source-A row count and the
source-B row count.  (Without the uniqueness proviso the inner join is
many-to-many and the bound fails; see the counterexample.) -/
theorem C1_join_membership_and_bound {parse : String → Option Rat}
    {A B af bs out : DataFrame}
    (hA : prepA parse A = Except.ok af) (hB : prepB B = Except.ok bs)
    (h : transform parse A B = Except.ok out) :
    (∀ r ∈ out.rows,
      (∃ a ∈ af.rows, cell a "facility_id" = cell r "facility_id") ∧
      (∃ b ∈ (normalizeHeaders B).rows,
        cell b "facility_id" = cell r "facility_id")) ∧
    ((af.rows.map rowKey).Nodup →
      ((normalizeHeaders B).rows.map rowKey).Nodup →
      out.rows.length ≤
        min af.rows.length (normalizeHeaders B).rows.length) := by
  rcases transform_ok h with ⟨af', bs', af2, hA', hB', hD, hM⟩
  have haf : af = af' := by
    have := hA.symm.trans hA'
    injection this
  have hbs : bs = bs' := by
    have := hB.symm.trans hB'
    injection this
  subst haf
  subst hbs
  constructor
  · intro r hr
    rcases merge_mem_rows hM r hr with ⟨a, ha, b, hb, hkey, hcomb⟩
    rw [prepB_cols hB] at hcomb
    have hkeyr : cell r "facility_id" = cell a "facility_id" := by
      rw [hcomb]
      exact cell_combineRow_key _ _ _ _ (key_not_mem_overlapOf _ _ _)
        (overlap_sfx_x_ne (by decide)) (overlap_sfx_y_ne (by decide))
    constructor
    · rcases dropCols_cell hD a ha with ⟨a0, ha0, hcell⟩
      refine ⟨a0, ha0, ?_⟩
      rw [hkeyr]
      exact (hcell _ (by decide)).symm
    · rw [prepB_rows hB] at hb
      rcases List.mem_map.mp hb with ⟨b0, hb0, hb0e⟩
      refine ⟨b0, hb0, ?_⟩
      rw [hkeyr, ← hkey, ← hb0e]
      exact (cell_selectRow b0 HOSPITAL_INFO_COLS "facility_id" (by decide)).symm
  · intro hNA hNB
    have hN_bs : (bs.rows.map rowKey).Nodup := by
      rw [prepB_map_rowKey hB]
      exact hNB
    rw [merge_rows_length hM]
    apply Nat.le_min.mpr
    constructor
    · have hlen : af2.rows.length = af.rows.length := by
        rw [dropCols_ok_rows hD, List.length_map]
      rw [← hlen]
      apply sum_map_le_length
      intro a _
      exact countP_le_one_of_nodup (fun b => cell b "facility_id") bs.rows
        hN_bs (cell a "facility_id")
    · have hlen : (normalizeHeaders B).rows.length = bs.rows.length := by
        rw [prepB_rows hB, List.length_map]
      rw [hlen]
      have hmm : (af2.rows.map (fun a => bs.rows.countP
            (fun b => decide (cell b "facility_id" = cell a "facility_id")))).sum =
          ((af2.rows.map rowKey).map (fun v => bs.rows.countP
            (fun b => decide (cell b "facility_id" = v)))).sum := by
        rw [List.map_map]
        rfl
      rw [hmm]
      apply sum_countP_le_length (fun b => cell b "facility_id")
        (af2.rows.map rowKey) _ bs.rows
      rw [dropCols_map_rowKey hD]
      exact hNA

/-- C3 (amended): provided each source has at most one row per facility
identifier, the consolidated output has at most one row per facility
identifier.  (Without the proviso, duplicate join keys multiply through
the inner join; see the counterexample.) -/
theorem C3_one_row_per_facility {parse : String → Option Rat}
    {A B af bs out : DataFrame}
    (hA : prepA parse A = Except.ok af) (hB : prepB B = Except.ok bs)
    (h : transform parse A B = Except.ok out)
    (hNA : (af.rows.map rowKey).Nodup)
    (hNB : ((normalizeHeaders B).rows.map rowKey).Nodup) :
    ∀ v, out.rows.countP (fun r => decide (rowKey r = v)) ≤ 1 := by
  rcases transform_ok h with ⟨af', bs', af2, hA', hB', hD, hM⟩
  have haf : af = af' := by
    have := hA.symm.trans hA'
    injection this
  have hbs : bs = bs' := by
    have := hB.symm.trans hB'
    injection this
  subst haf
  subst hbs
  intro v
  rw [merge_rows_countP hM (fun r => decide (rowKey r = v))]
  have hbc : bs.cols = HOSPITAL_INFO_COLS := prepB_cols hB
  have hN_bs : (bs.rows.map rowKey).Nodup := by
    rw [prepB_map_rowKey hB]
    exact hNB
  have hterm : ∀ a ∈ af2.rows,
      ((bs.rows.filter
          (fun b => decide (cell b "facility_id" = cell a "facility_id"))).map
        (combineRow (overlapOf af2.cols "facility_id" bs.cols)
          "facility_id" a)).countP (fun r => decide (rowKey r = v)) =
      if rowKey a = v
      then (bs.rows.filter
          (fun b => decide (cell b "facility_id" = cell a "facility_id"))).length
      else 0 := by
    intro a _
    rw [List.countP_map]
    rw [List.countP_congr (q := fun _ => decide (rowKey a = v)) ?_]
    · rw [countP_const]
      by_cases hv : rowKey a = v
      · rw [if_pos hv, if_pos (by simp [hv])]
      · rw [if_neg hv, if_neg (by simp [hv])]
    · intro b _
      have hk : rowKey (combineRow (overlapOf af2.cols "facility_id" bs.cols)
          "facility_id" a b) = rowKey a := by
        unfold rowKey
        rw [hbc, cell_combineRow_key _ _ _ _ (key_not_mem_overlapOf _ _ _)
          (overlap_sfx_x_ne (by decide)) (overlap_sfx_y_ne (by decide))]
      simp [Function.comp, hk]
  rw [List.map_congr_left hterm]
  apply sum_if_le_one af2.rows rowKey v
  · rw [dropCols_map_rowKey hD]
    exact hNA
  · intro a _
    rw [← List.countP_eq_length_filter]
    exact countP_le_one_of_nodup (fun b => cell b "facility_id") bs.rows
      hN_bs (cell a "facility_id")

/-- C6 (amended): the name and state fields of every output row are taken
exclusively from source B, unconditionally, because source A's copies are
dropped before the join; the city/type/ownership fields likewise provided
source A does not itself carry those columns after normalization
(otherwise the join suffixes both copies instead; see the
counterexample). -/
theorem C6_fields_from_source_b {parse : String → Option Rat}
    {A B bs out : DataFrame}
    (hB : prepB B = Except.ok bs) (h : transform parse A B = Except.ok out) :
    ∀ r ∈ out.rows, ∃ b0 ∈ (normalizeHeaders B).rows,
      cell b0 "facility_id" = cell r "facility_id" ∧
      cell r "facility_name" = cell b0 "facility_name" ∧
      cell r "state" = cell b0 "state" ∧
      (("city_town" ∉ (normalizeHeaders A).cols ∧
        "hospital_type" ∉ (normalizeHeaders A).cols ∧
        "hospital_ownership" ∉ (normalizeHeaders A).cols ∧
        ∀ ra ∈ (normalizeHeaders A).rows, ∀ p ∈ ra,
          p.1 ≠ "city_town" ∧ p.1 ≠ "hospital_type" ∧
            p.1 ≠ "hospital_ownership") →
        ∀ c ∈ B_PROVENANCE_COLS, cell r c = cell b0 c) := by
  rcases transform_ok h with ⟨af, bs', af2, hA, hB', hD, hM⟩
  have hbs : bs = bs' := by
    have := hB.symm.trans hB'
    injection this
  subst hbs
  intro r hrr
  rcases merge_mem_rows hM r hrr with ⟨a, ha, b, hb, hkey, hcomb⟩
  rw [prepB_cols hB] at hcomb
  rw [prepB_rows hB] at hb
  rcases List.mem_map.mp hb with ⟨b0, hb0, hb0e⟩
  have hkeyr : cell r "facility_id" = cell a "facility_id" := by
    rw [hcomb]
    exact cell_combineRow_key _ _ _ _ (key_not_mem_overlapOf _ _ _)
      (overlap_sfx_x_ne (by decide)) (overlap_sfx_y_ne (by decide))
  -- facts about the keys occurring in the left row `a`
  rw [dropCols_ok_rows hD] at ha
  rcases List.mem_map.mp ha with ⟨a0, ha0, ha0e⟩
  have hak : ∀ p ∈ a, p.1 ∉ DROP_COLS := by
    intro p hp
    rw [← ha0e] at hp
    have := (List.mem_filter.mp hp).2
    simpa using this
  have hafcols : af2.cols = af.cols.filter (fun c => decide (c ∉ DROP_COLS)) :=
    dropCols_ok_cols hD
  have hafc : af.cols = (normalizeHeaders A).cols := prepA_ok_cols hA
  -- generic step for one provenance column
  have hfield : ∀ c, c ≠ "facility_id" → c ∈ ALL_TARGETS →
      c ∈ HOSPITAL_INFO_COLS →
      c ∉ overlapOf af2.cols "facility_id" HOSPITAL_INFO_COLS →
      (∀ p ∈ a, p.1 ≠ c) → cell r c = cell b0 c := by
    intro c hck hct hch hcov hap
    rw [hcomb, cell_combineRow_right _ _ _ _ _ hck hcov
      (overlap_sfx_x_ne hct) (overlap_sfx_y_ne hct) hap, ← hb0e]
    exact cell_selectRow b0 HOSPITAL_INFO_COLS c hch
  -- the two columns dropped from source A: provenance holds outright
  have hdropped : ∀ c, c ∈ DROP_COLS → c ≠ "facility_id" → c ∈ ALL_TARGETS →
      c ∈ HOSPITAL_INFO_COLS → cell r c = cell b0 c := by
    intro c hcd hck hct hch
    apply hfield c hck hct hch
    · intro hmem
      have h2 := (List.mem_filter.mp (hafcols ▸ (mem_overlapOf hmem).1)).2
      simp only [decide_eq_true_eq] at h2
      exact h2 hcd
    · intro p hp hpc
      exact hak p hp (hpc ▸ hcd)
  refine ⟨b0, hb0, ?_,
    hdropped "facility_name" (by decide) (by decide) (by decide) (by decide),
    hdropped "state" (by decide) (by decide) (by decide) (by decide), ?_⟩
  · rw [hkeyr, ← hkey, ← hb0e]
    exact (cell_selectRow b0 HOSPITAL_INFO_COLS "facility_id" (by decide)).symm
  · rintro ⟨hc1, hc2, hc3, hrowsA⟩
    have hak3 : ∀ p ∈ a, p.1 ≠ "city_town" ∧ p.1 ≠ "hospital_type" ∧
        p.1 ≠ "hospital_ownership" := by
      rcases prepA_rows_keys hA a0 ha0 with ⟨r0, hr0, hkeys⟩
      intro p hp
      have hpa0 : p ∈ a0 := by
        rw [← ha0e] at hp
        exact (List.mem_filter.mp hp).1
      have hmemk : p.1 ∈ a0.map Prod.fst := List.mem_map.mpr ⟨p, hpa0, rfl⟩
      rw [hkeys] at hmemk
      rcases List.mem_map.mp hmemk with ⟨p0, hp0, hp0e⟩
      rw [← hp0e]
      exact hrowsA r0 hr0 p0 hp0
    have habsent : ∀ c, c ∉ (normalizeHeaders A).cols →
        c ∉ overlapOf af2.cols "facility_id" HOSPITAL_INFO_COLS := by
      intro c hcn hmem
      have h1 := (mem_overlapOf hmem).1
      rw [hafcols] at h1
      exact hcn (hafc ▸ (List.mem_filter.mp h1).1)
    intro c hcmem
    rw [B_PROVENANCE_COLS] at hcmem
    simp only [List.mem_cons, List.not_mem_nil, or_false] at hcmem
    rcases hcmem with h1 | h1 | h1 | h1 | h1 <;> subst h1
    · exact hdropped "facility_name" (by decide) (by decide) (by decide)
        (by decide)
    · exact hfield _ (by decide) (by decide) (by decide) (habsent _ hc1)
        (fun p hp => (hak3 p hp).1)
    · exact hdropped "state" (by decide) (by decide) (by decide) (by decide)
    · exact hfield _ (by decide) (by decide) (by decide) (habsent _ hc2)
        (fun p hp => (hak3 p hp).2.1)
    · exact hfield _ (by decide) (by decide) (by decide) (habsent _ hc3)
        (fun p hp => (hak3 p hp).2.2)

/-! ### Counterexamples -/

/-- C1 counterexample: with the facility identifier duplicated in both
sources, the filtered source-A count and the source-B count are both 2,
yet the inner join emits 4 rows, violating the claimed
`≤ min` bound. -/
theorem C1_counterexample :
    (prepA parseNone dupA).toOption.map (fun df => df.rows.length) = some 2 ∧
    (normalizeHeaders dupB).rows.length = 2 ∧
    (transform parseNone dupA dupB).toOption.map (fun df => df.rows.length) =
      some 4 ∧
    ¬(4 ≤ min 2 2) :=
  ⟨rfl, rfl, rfl, by decide⟩

/-- C3 counterexample: with facility 7 appearing twice in source A, the
output holds two rows for facility 7, violating the claimed one row per
facility identifier. -/
theorem C3_counterexample :
    (transform parseNone dup3A dup3B).toOption.map
      (fun df => df.rows.countP (fun r => decide (rowKey r = Value.str "7"))) =
      some 2 ∧
    ¬(2 ≤ 1) :=
  ⟨rfl, by decide⟩

/-- C6 counterexample: when source A itself carries a `city_town` column
(value AAA) differing from source B's (value BBB), the merge suffixes
both copies, so the output row's `city_town` field is not source B's
value: the plain column reads as missing while source A's value survives
under `city_town_x`. -/
theorem C6_counterexample :
    (transform parseNone c6A c6B).toOption.map
      (fun df => df.rows.map (fun r =>
        (cell r "city_town", cell r "city_town_x", cell r "city_town_y"))) =
      some [(Value.nan, Value.str "AAA", Value.str "BBB")] ∧
    cell c6Brow "city_town" = Value.str "BBB" ∧
    Value.nan ≠ Value.str "BBB" :=
  ⟨rfl, rfl, by decide⟩

/-! ### Witnesses -/

theorem C1_witness :
    exOut.rows.length ≤ min exA.rows.length (normalizeHeaders exB).rows.length :=
  (@C1_join_membership_and_bound parseNone exA exB exA exB exOut rfl rfl rfl).2
    (by decide) (by decide)

theorem C2_witness :
    runPipeline parseNone (some exA) (some exB) availTrue false [] =
      ([], Outcome.writeFailed) :=
  (@C2_failed_write_commits_nothing parseNone exA exB exOut availTrue []
    rfl rfl).1

theorem C3_witness :
    exOut.rows.countP (fun r => decide (rowKey r = Value.str "10")) ≤ 1 :=
  @C3_one_row_per_facility parseNone exA exB exA exB exOut rfl rfl rfl
    (by decide) (by decide) (Value.str "10")

theorem C4_witness :
    (∃ q, cell exOutRow "excess_readmission_ratio" = Value.num q) ∧
    (∃ q, cell exOutRow "number_of_discharges" = Value.num q) :=
  (@C4_unparseable_never_output parseNone exA exB exOut rfl).2 exOutRow
    (by decide)

theorem C5_witness :
    cell exOutRow "measure_name" = Value.str TARGET_MEASURE :=
  @C5_measure_exact parseNone exA exB exOut rfl exOutRow (by decide)

theorem C6_witness :
    ∃ b0 ∈ (normalizeHeaders exB).rows,
      cell b0 "facility_id" = cell exOutRow "facility_id" ∧
      cell exOutRow "facility_name" = cell b0 "facility_name" ∧
      cell exOutRow "state" = cell b0 "state" ∧
      (("city_town" ∉ (normalizeHeaders exA).cols ∧
        "hospital_type" ∉ (normalizeHeaders exA).cols ∧
        "hospital_ownership" ∉ (normalizeHeaders exA).cols ∧
        ∀ ra ∈ (normalizeHeaders exA).rows, ∀ p ∈ ra,
          p.1 ≠ "city_town" ∧ p.1 ≠ "hospital_type" ∧
            p.1 ≠ "hospital_ownership") →
        ∀ c ∈ B_PROVENANCE_COLS, cell exOutRow c = cell b0 c) :=
  @C6_fields_from_source_b parseNone exA exB exB exOut rfl rfl exOutRow
    (by decide)

theorem C7_witness :
    runPipeline parseNone none (some exB) availTrue true [] =
      ([], Outcome.missingInput) :=
  @C7_missing_input_aborts parseNone none (some exB) availTrue true []
    (Or.inl rfl)

theorem C8_witness :
    lookupTable (runPipeline parseNone (some exA) (some exB) availTrue true
      []).1 TABLE_NAME = some exOut ∧
    lookupTable (runPipeline parseNone (some exA) (some exB) availTrue true
      [(TABLE_NAME, exPrior)]).1 TABLE_NAME = some exOut ∧
    (runPipeline parseNone (some exA) (some exB) availTrue true []).2 =
      Outcome.success :=
  @C8_idempotent_full_replace parseNone exA exB exOut availTrue rfl rfl
    [] [(TABLE_NAME, exPrior)]

theorem C9_witness :
    (retryConnect availFalse).attempts ≤ 5 ∧
    runPipeline parseNone (some exA) (some exB) availFalse true [] =
      ([], Outcome.connectFailed) :=
  ⟨(@C9_bounded_retry availFalse parseNone exA exB exOut true [] rfl).1,
   (@C9_bounded_retry availFalse parseNone exA exB exOut true [] rfl).2.2 rfl⟩

theorem C10_witness :
    ∃ c, transform parseNone exA10 exB =
      Except.error (ETLError.keyError c) :=
  @C10_required_columns parseNone exA10 exB
    (Or.inl ⟨"measure_name", by decide, by decide⟩)

end HealthcareETL
